import Mathlib

/-!
Shallow embedding of the chess-position core of the `alexander` repository
(`src/types.rs`, `src/board.rs`, `src/movegen.rs`) and verification of the
specification claims about it.

Modelling conventions:
* Rust `u64` bitboard words are `Nat` values kept below `2 ^ 64` by the
  operations themselves (only `1 <<< i` with `i < 64` and `^^^` occur).
* Rust `u32` arithmetic in `file_index_of` is modelled with explicit
  wrap-around modulo `2 ^ 32` (release-profile semantics of the
  `chrindex - 10` subtraction) and `as u8` as `% 256`.
* Fallible Rust functions return explicit result inductives; a Rust
  `unwrap()` on a failing value (a process abort) is modelled by a
  distinguished `panic` constructor of the result type.
* The regexes of `lerf_index_for` are modelled by direct scans over the
  character list: `(?i)[a-h][1-8]` with `is_match` is an unanchored,
  case-insensitive substring test, and the case-sensitive extractor
  `(?P<file>[a-h])(?P<rank>[1-8])` takes the leftmost lowercase match.
-/

namespace Alexander

/-! ## types.rs -/

/-- `Side` from types.rs. -/
inductive Side
  | White
  | Black
deriving DecidableEq

/-- `PieceType` from types.rs. -/
inductive PieceType
  | Pawn
  | Knight
  | Bishop
  | Rook
  | Queen
  | King
deriving DecidableEq

/-- `Piece` from types.rs (field order `ptype`, `side` as in the source). -/
structure Piece where
  ptype : PieceType
  side : Side
deriving DecidableEq

/-- `InvalidPieceError` from types.rs. -/
structure InvalidPieceError where
  msg : String
deriving DecidableEq

/-- `InvalidSquareError` from types.rs. -/
structure InvalidSquareError where
  msg : String
deriving DecidableEq

/-- `InvalidFileError` from types.rs. -/
structure InvalidFileError where
  msg : String
deriving DecidableEq

/-- `Piece::try_from(&str)` from types.rs: the twelve Unicode glyphs. -/
def Piece.tryFrom (piece : String) : Except InvalidPieceError Piece :=
  if piece = "♙" then .ok ⟨.Pawn, .White⟩
  else if piece = "♘" then .ok ⟨.Knight, .White⟩
  else if piece = "♗" then .ok ⟨.Bishop, .White⟩
  else if piece = "♖" then .ok ⟨.Rook, .White⟩
  else if piece = "♕" then .ok ⟨.Queen, .White⟩
  else if piece = "♔" then .ok ⟨.King, .White⟩
  else if piece = "♟" then .ok ⟨.Pawn, .Black⟩
  else if piece = "♞" then .ok ⟨.Knight, .Black⟩
  else if piece = "♝" then .ok ⟨.Bishop, .Black⟩
  else if piece = "♜" then .ok ⟨.Rook, .Black⟩
  else if piece = "♛" then .ok ⟨.Queen, .Black⟩
  else if piece = "♚" then .ok ⟨.King, .Black⟩
  else .error ⟨piece⟩

/-! ## board.rs: coordinate system -/

/-- Character class `[a-h]` of the case-sensitive extractor regex
(ASCII codes 97–104). -/
def isLowerFileChar (c : Char) : Bool :=
  97 ≤ c.toNat && c.toNat ≤ 104

/-- The extra characters `[A-H]` admitted by the `(?i)` filter regex
(ASCII codes 65–72). -/
def isUpperFileChar (c : Char) : Bool :=
  65 ≤ c.toNat && c.toNat ≤ 72

/-- Character class `[1-8]` (ASCII codes 49–56). -/
def isRankChar (c : Char) : Bool :=
  49 ≤ c.toNat && c.toNat ≤ 56

/-- `Regex::new(r"(?i)[a-h][1-8]").is_match(square)`: some two adjacent
characters form a case-insensitive file-rank pair (unanchored). -/
def containsSquareCI : List Char → Bool
  | c1 :: c2 :: rest =>
    ((isLowerFileChar c1 || isUpperFileChar c1) && isRankChar c2)
      || containsSquareCI (c2 :: rest)
  | _ => false

/-- `Regex::new(r"(?P<file>[a-h])(?P<rank>[1-8])").captures(square)`:
the leftmost lowercase file-rank pair, if any. -/
def firstSquareLower : List Char → Option (Char × Char)
  | c1 :: c2 :: rest =>
    if isLowerFileChar c1 && isRankChar c2 then some (c1, c2)
    else firstSquareLower (c2 :: rest)
  | _ => none

/-- `2 ^ 32`, the modulus of Rust `u32` arithmetic. -/
def U32MOD : Nat := 4294967296

/-- Result of `file_index_of` (`Result<u8, InvalidFileError>`). -/
inductive FileIndexResult
  | ok (index : Nat)
  | err (e : InvalidFileError)
deriving DecidableEq

/-- `char::to_digit(self, 18)` from the Rust standard library: digits `0-9`
and letters `a-h` / `A-H` (values 10–17 are the only letter values below the
radix 18). -/
def to_digit18 (c : Char) : Option Nat :=
  if 48 ≤ c.toNat ∧ c.toNat ≤ 57 then some (c.toNat - 48)
  else if 97 ≤ c.toNat ∧ c.toNat ≤ 104 then some (c.toNat - 87)
  else if 65 ≤ c.toNat ∧ c.toNat ≤ 72 then some (c.toNat - 55)
  else none

/-- `file_index_of` from board.rs.  `'a'.to_digit(18) = 10`; the `u32`
subtraction `chrindex - 10` wraps modulo `2 ^ 32` (release profile), and
`as u8` truncates modulo 256. -/
def file_index_of (file : Char) : FileIndexResult :=
  match to_digit18 file with
  | none => .err ⟨"File out of range: " ++ file.toString⟩
  | some chrindex =>
    let index := (chrindex + U32MOD - 10) % U32MOD % 256
    if index < 8 then .ok index
    else .err ⟨file.toString⟩

/-- Result of `file_for_index` (`Result<String, InvalidFileError>`). -/
inductive FileForResult
  | ok (s : String)
  | err (e : InvalidFileError)
deriving DecidableEq

/-- `file_for_index` from board.rs. -/
def file_for_index (index : Nat) : FileForResult :=
  if 7 < index then .err ⟨toString index⟩
  else .ok (([ 'a', 'b', 'c', 'd', 'e', 'f', 'g', 'h'].getD index 'a').toString)

/-- Result of `lerf_index_for`: `Ok(u8)`, `Err(InvalidSquareError)`, or a
panic (the source calls `.unwrap()` on `sqre.captures(square)`, which fails
when the case-insensitive filter matched but no lowercase pair exists). -/
inductive LerfResult
  | ok (idx : Nat)
  | err (e : InvalidSquareError)
  | panic
deriving DecidableEq

/-- `lerf_index_for` from board.rs.  `u8::from_str(rank_str).unwrap() - 1`
on a single digit `1`–`8` is `rank_chr.toNat - 49`; the
`file_index_of(file_chr).unwrap()` cannot fail because `file_chr` is a
lowercase `a`–`h`, but a hypothetical failure would also be a panic. -/
def lerf_index_for (square : String) : LerfResult :=
  if !(containsSquareCI square.data) then .err ⟨square⟩
  else
    match firstSquareLower square.data with
    | none => .panic
    | some (file_chr, rank_chr) =>
      match file_index_of file_chr with
      | .err _ => .panic
      | .ok file_index =>
        let rank_index := rank_chr.toNat - 49
        .ok (rank_index * 8 + file_index)

/-! ## board.rs: BitBoard -/

/-- `BitBoard(pub u64)` from board.rs. -/
structure BitBoard where
  val : Nat
deriving DecidableEq

/-- `impl BitXor for BitBoard`. -/
def BitBoard.xor (a b : BitBoard) : BitBoard := ⟨a.val ^^^ b.val⟩

/-- Result of `BitBoard::from(&str)`: the impl calls
`lerf_index_for(square).unwrap()`, so any non-`Ok` outcome is a panic. -/
inductive BitBoardFromResult
  | ok (b : BitBoard)
  | panic
deriving DecidableEq

/-- `BitBoard::from(&str)` from board.rs. -/
def BitBoard.fromSquare (square : String) : BitBoardFromResult :=
  match lerf_index_for square with
  | .ok bit_index => .ok ⟨1 <<< bit_index⟩
  | _ => .panic

/-! ## board.rs: starting-position constants -/

def WHITE_PAWN_START_POS : Nat := 0x000000000000ff00
def WHITE_KNIGHT_START_POS : Nat := 0x0000000000000042
def WHITE_BISHOP_START_POS : Nat := 0x0000000000000024
def WHITE_ROOK_START_POS : Nat := 0x0000000000000081
def WHITE_QUEEN_START_POS : Nat := 0x0000000000000010
def WHITE_KING_START_POS : Nat := 0x0000000000000008
def BLACK_PAWN_START_POS : Nat := 0x00ff000000000000
def BLACK_KNIGHT_START_POS : Nat := 0x4200000000000000
def BLACK_BISHOP_START_POS : Nat := 0x2400000000000000
def BLACK_ROOK_START_POS : Nat := 0x8100000000000000
def BLACK_QUEEN_START_POS : Nat := 0x1000000000000000
def BLACK_KING_START_POS : Nat := 0x0800000000000000

/-! ## board.rs: PieceSet -/

/-- `PieceSet` from board.rs: six bitboards for one color. -/
structure PieceSet where
  pawns : BitBoard
  knights : BitBoard
  bishops : BitBoard
  rooks : BitBoard
  queens : BitBoard
  king : BitBoard
deriving DecidableEq

/-- `PieceSet::new(side)` from board.rs. -/
def PieceSet.new (side : Side) : PieceSet :=
  match side with
  | .White =>
    ⟨⟨WHITE_PAWN_START_POS⟩, ⟨WHITE_KNIGHT_START_POS⟩, ⟨WHITE_BISHOP_START_POS⟩,
     ⟨WHITE_ROOK_START_POS⟩, ⟨WHITE_QUEEN_START_POS⟩, ⟨WHITE_KING_START_POS⟩⟩
  | .Black =>
    ⟨⟨BLACK_PAWN_START_POS⟩, ⟨BLACK_KNIGHT_START_POS⟩, ⟨BLACK_BISHOP_START_POS⟩,
     ⟨BLACK_ROOK_START_POS⟩, ⟨BLACK_QUEEN_START_POS⟩, ⟨BLACK_KING_START_POS⟩⟩

/-- `PieceSet::bit_board_for(piece)` from board.rs. -/
def PieceSet.bit_board_for (s : PieceSet) (piece : PieceType) : BitBoard :=
  match piece with
  | .Pawn => s.pawns
  | .Knight => s.knights
  | .Bishop => s.bishops
  | .Rook => s.rooks
  | .Queen => s.queens
  | .King => s.king

/-- `PieceSet::set_bit_board(bit_board, piece)` from board.rs. -/
def PieceSet.set_bit_board (s : PieceSet) (bit_board : BitBoard) (piece : PieceType) : PieceSet :=
  match piece with
  | .Pawn => { s with pawns := bit_board }
  | .Knight => { s with knights := bit_board }
  | .Bishop => { s with bishops := bit_board }
  | .Rook => { s with rooks := bit_board }
  | .Queen => { s with queens := bit_board }
  | .King => { s with king := bit_board }

/-! ## board.rs: the 8x8 mailbox -/

/-- `_8x8Board([[(Option<Piece>); 8]; 8])` from board.rs.  The Rust array
type fixes the shape to 8 rows of 8 entries; the list model recovers that
shape through the `wf` predicate below.  Row index is `bit_index / 8`
(rank), column index is `bit_index % 8` (file), exactly as in
`set_square`/`get_square`. -/
structure _8x8Board where
  squares : List (List (Option Piece))
deriving DecidableEq

/-- `_8x8Board::empty()` from board.rs. -/
def _8x8Board.empty : _8x8Board :=
  ⟨List.replicate 8 (List.replicate 8 none)⟩

/-- Shape invariant that the Rust type `[[(Option<Piece>); 8]; 8]`
guarantees by construction: 8 rows, each of 8 entries. -/
def _8x8Board.wf (b : _8x8Board) : Bool :=
  b.squares.length == 8 && b.squares.all (fun row => row.length == 8)

/-- One cell of `TryFrom<[[&str; 8]; 8]>`: `"" => None`, otherwise
`Piece::try_from(..)?`. -/
def parseGlyph (s : String) : Except InvalidPieceError (Option Piece) :=
  if s = "" then .ok none else (Piece.tryFrom s).map some

/-- The inner file loop of `TryFrom<[[&str; 8]; 8]>`: every cell of the
fresh all-`None` row is written in order, which amounts to parsing the
whole row. -/
def rowFromStrs (row : List String) : Except InvalidPieceError (List (Option Piece)) :=
  row.mapM parseGlyph

/-- The outer rank loop of `TryFrom<[[&str; 8]; 8]>`:
`new_board.0[7 - rank_index] = <parsed row rank_index>`. -/
def writeRanks (acc : _8x8Board) (rank_index : Nat) : List (List (Option Piece)) → _8x8Board
  | [] => acc
  | row :: rest => writeRanks ⟨acc.squares.set (7 - rank_index) row⟩ (rank_index + 1) rest

/-- `impl TryFrom<[[&str; 8]; 8]> for _8x8Board` from board.rs. -/
def _8x8Board.tryFrom (board : List (List String)) : Except InvalidPieceError _8x8Board :=
  match board.mapM rowFromStrs with
  | .error e => .error e
  | .ok rows => .ok (writeRanks _8x8Board.empty 0 rows)

/-- The glyph array literal inside `_8x8Board::new()` (rank 8 first). -/
def startRows : List (List String) :=
  [["♜", "♞", "♝", "♛", "♚", "♝", "♞", "♜"],
   ["♟", "♟", "♟", "♟", "♟", "♟", "♟", "♟"],
   ["", "", "", "", "", "", "", ""],
   ["", "", "", "", "", "", "", ""],
   ["", "", "", "", "", "", "", ""],
   ["", "", "", "", "", "", "", ""],
   ["♙", "♙", "♙", "♙", "♙", "♙", "♙", "♙"],
   ["♖", "♘", "♗", "♕", "♔", "♗", "♘", "♖"]]

/-- `_8x8Board::new()` from board.rs: `try_from(..).unwrap()`.  The error
branch is unreachable (all glyphs are valid); a panic there is modelled by
an arbitrary fallback that is never taken. -/
def _8x8Board.new : _8x8Board :=
  match _8x8Board.tryFrom startRows with
  | .ok b => b
  | .error _ => _8x8Board.empty

/-- Direct cell access `self.0[bit_index / 8][bit_index % 8]`, shared by
`set_square` and `get_square`. -/
def _8x8Board.entry (b : _8x8Board) (bit_index : Nat) : Option Piece :=
  (b.squares.getD (bit_index / 8) []).getD (bit_index % 8) none

/-- The write `self.0[bit_index / 8][bit_index % 8] = value`. -/
def _8x8Board.setAt (b : _8x8Board) (bit_index : Nat) (value : Option Piece) : _8x8Board :=
  ⟨b.squares.set (bit_index / 8)
    ((b.squares.getD (bit_index / 8) []).set (bit_index % 8) value)⟩

/-- Result of `_8x8Board::set_square` (`Result<(), InvalidSquareError>`
plus the mutated board; `lerf_index_for` panicking propagates). -/
inductive SetSquareResult
  | ok (b : _8x8Board)
  | err (e : InvalidSquareError)
  | panic
deriving DecidableEq

/-- `_8x8Board::set_square(square, value)` from board.rs. -/
def _8x8Board.set_square (b : _8x8Board) (square : String) (value : Option Piece) :
    SetSquareResult :=
  match lerf_index_for square with
  | .ok i => .ok (b.setAt i value)
  | .err e => .err e
  | .panic => .panic

/-- Result of `_8x8Board::get_square`: the source unwraps
`lerf_index_for(square)`, so a bad square is a panic. -/
inductive GetSquareResult
  | ok (p : Option Piece)
  | panic
deriving DecidableEq

/-- `_8x8Board::get_square(square)` from board.rs. -/
def _8x8Board.get_square (b : _8x8Board) (square : String) : GetSquareResult :=
  match lerf_index_for square with
  | .ok i => .ok (b.entry i)
  | _ => .panic

/-! ## board.rs: Board -/

/-- `Board` from board.rs. -/
structure Board where
  white : PieceSet
  black : PieceSet
  squares : _8x8Board
deriving DecidableEq

/-- `Board::new()` from board.rs. -/
def Board.new : Board :=
  ⟨PieceSet.new .White, PieceSet.new .Black, _8x8Board.new⟩

/-- `Board::bit_board_for(piece)` from board.rs. -/
def Board.bit_board_for (b : Board) (piece : Piece) : BitBoard :=
  match piece.side with
  | .White => b.white.bit_board_for piece.ptype
  | .Black => b.black.bit_board_for piece.ptype

/-- `Board::set_bit_board(bit_board, piece)` from board.rs. -/
def Board.set_bit_board (b : Board) (bit_board : BitBoard) (piece : Piece) : Board :=
  match piece.side with
  | .White => { b with white := b.white.set_bit_board bit_board piece.ptype }
  | .Black => { b with black := b.black.set_bit_board bit_board piece.ptype }

/-- Result of `Board::set_square`, carrying the (possibly mutated) board. -/
inductive BoardSetSquareResult
  | ok (b : Board)
  | err (e : InvalidSquareError)
  | panic
deriving DecidableEq

/-- `Board::set_square(square, piece)` from board.rs (delegates to the
mailbox). -/
def Board.set_square (b : Board) (square : String) (piece : Option Piece) :
    BoardSetSquareResult :=
  match b.squares.set_square square piece with
  | .ok m => .ok { b with squares := m }
  | .err e => .err e
  | .panic => .panic

/-- `Board::get_square(square)` from board.rs. -/
def Board.get_square (b : Board) (square : String) : GetSquareResult :=
  b.squares.get_square square

/-! ## movegen.rs -/

/-- `CAPTURE_FLAG` from movegen.rs. -/
def CAPTURE_FLAG : Nat := 0x04

/-- `MoveType` from movegen.rs. -/
inductive MoveType
  | Quiet
  | DoublePawnPush
  | KingsideCastle
  | QueensideCastle
  | Capture
  | EnPassant
  | KnightPromote
  | BishopPromote
  | RookPromote
  | QueenPromote
  | KnightPromoteCapture
  | BishopPromoteCapture
  | RookPromoteCapture
  | QueenPromoteCapture
deriving DecidableEq

/-- The discriminant values of `MoveType` (`Quiet = 0`, implicit increments,
`KnightPromote = 8`, implicit increments). -/
def MoveType.tag : MoveType → Nat
  | .Quiet => 0
  | .DoublePawnPush => 1
  | .KingsideCastle => 2
  | .QueensideCastle => 3
  | .Capture => 4
  | .EnPassant => 5
  | .KnightPromote => 8
  | .BishopPromote => 9
  | .RookPromote => 10
  | .QueenPromote => 11
  | .KnightPromoteCapture => 12
  | .BishopPromoteCapture => 13
  | .RookPromoteCapture => 14
  | .QueenPromoteCapture => 15

/-- `MoveType::is_capture()` from movegen.rs: `*self as u8 & CAPTURE_FLAG != 0`. -/
def MoveType.is_capture (m : MoveType) : Bool :=
  (m.tag &&& CAPTURE_FLAG) != 0

/-- `Move` from movegen.rs. -/
structure Move where
  piece : Piece
  origin : String
  target : String
  move_type : MoveType

/-- `Move::is_capture()` from movegen.rs. -/
def Move.is_capture (m : Move) : Bool :=
  m.move_type.is_capture

/-- Result of `Move::apply(&mut Board)`.  `err` and `panic` carry the state
of the `&mut Board` argument at the moment of the failure, since the Rust
function mutates in place. -/
inductive ApplyResult
  | ok (b : Board)
  | err (e : InvalidSquareError) (b : Board)
  | panic (b : Board)
deriving DecidableEq

/-- `Move::apply(&mut Board)` from movegen.rs.  Only `Quiet` and
`DoublePawnPush` have any effect; `KingsideCastle` has an explicit empty
arm and every remaining category falls to the no-op `_ => ()` arm, so both
are modelled by the final catch-all.  The two `BitBoard::from` calls (which
unwrap and hence panic on bad squares) happen before any mutation. -/
def Move.apply (m : Move) (board : Board) : ApplyResult :=
  match m.move_type with
  | .Quiet | .DoublePawnPush =>
    let piece_bb := board.bit_board_for m.piece
    match BitBoard.fromSquare m.origin with
    | .panic => .panic board
    | .ok origin_bb =>
      match BitBoard.fromSquare m.target with
      | .panic => .panic board
      | .ok target_bb =>
        let move_bb := origin_bb.xor target_bb
        let board1 := board.set_bit_board (piece_bb.xor move_bb) m.piece
        match board1.set_square m.origin none with
        | .err e => .err e board1
        | .panic => .panic board1
        | .ok board2 =>
          match board2.set_square m.target (some m.piece) with
          | .err e => .err e board2
          | .panic => .panic board2
          | .ok board3 => .ok board3
  | _ => .ok board

/-! Sanity examples mirroring the repository's own unit tests. -/

example : Board.new.white.pawns = ⟨WHITE_PAWN_START_POS⟩ := by decide
example : Board.new.black.rooks = ⟨BLACK_ROOK_START_POS⟩ := by decide
example : _8x8Board.new.get_square "a4" = .ok none := by decide
example : _8x8Board.new.get_square "d1" = .ok (some ⟨.Queen, .White⟩) := by decide
example : _8x8Board.new.get_square "e1" = .ok (some ⟨.King, .White⟩) := by decide
example : _8x8Board.new.get_square "d8" = .ok (some ⟨.Queen, .Black⟩) := by decide
example : _8x8Board.new.get_square "f8" = .ok (some ⟨.Bishop, .Black⟩) := by decide
example :
    Move.apply ⟨⟨.Knight, .White⟩, "b1", "c3", .Quiet⟩ Board.new =
      .ok { Board.new with
              white := { PieceSet.new .White with
                           knights := ⟨0x0000000000040040⟩ }
              squares := (_8x8Board.new.setAt 1 none).setAt 18 (some ⟨.Knight, .White⟩) } := by
  decide

example : BitBoard.fromSquare "a8" = .ok ⟨0x0100000000000000⟩ := by decide
example : BitBoard.fromSquare "a1" = .ok ⟨0x0000000000000001⟩ := by decide
example : BitBoard.fromSquare "h8" = .ok ⟨0x8000000000000000⟩ := by decide
example : BitBoard.fromSquare "c7" = .ok ⟨0x0004000000000000⟩ := by decide
example : BitBoard.fromSquare "bad input" = .panic := by decide
example : file_index_of 'a' = .ok 0 := by decide
example : file_index_of 'e' = .ok 4 := by decide
example : file_index_of 'h' = .ok 7 := by decide
example : file_index_of 'j' = .err ⟨"File out of range: j"⟩ := by decide

/-! ## Helper definitions and lemmas for the claim theorems -/

/-- Canonical lowercase text of the square with file index `f` and rank
index `r`: the letter `a`–`h` followed by the digit `1`–`8`. -/
def squareStr (f r : Nat) : String :=
  ⟨[Char.ofNat (97 + f), Char.ofNat (49 + r)]⟩

/-- The same square written with an uppercase file letter `A`–`H`. -/
def upperSquareStr (f r : Nat) : String :=
  ⟨[Char.ofNat (65 + f), Char.ofNat (49 + r)]⟩

/-- The twelve (side, type) piece categories. -/
def allPieces : List Piece :=
  [⟨.Pawn, .White⟩, ⟨.Knight, .White⟩, ⟨.Bishop, .White⟩,
   ⟨.Rook, .White⟩, ⟨.Queen, .White⟩, ⟨.King, .White⟩,
   ⟨.Pawn, .Black⟩, ⟨.Knight, .Black⟩, ⟨.Bishop, .Black⟩,
   ⟨.Rook, .Black⟩, ⟨.Queen, .Black⟩, ⟨.King, .Black⟩]

/-- How many of the twelve piece bitboards of `b` have bit `i` set. -/
def countPiecesAt (b : Board) (i : Nat) : Nat :=
  (allPieces.filter (fun p => (b.bit_board_for p).val.testBit i)).length

theorem lerf_squareStr (f r : Nat) (hf : f < 8) (hr : r < 8) :
    lerf_index_for (squareStr f r) = .ok (r * 8 + f) := by
  interval_cases f <;> interval_cases r <;> decide

theorem fromSquare_squareStr (f r : Nat) (hf : f < 8) (hr : r < 8) :
    BitBoard.fromSquare (squareStr f r) = .ok ⟨1 <<< (r * 8 + f)⟩ := by
  simp [BitBoard.fromSquare, lerf_squareStr f r hf hr]

theorem list_getD_set_self {α : Type} (l : List α) (i : Nat) (a d : α)
    (h : i < l.length) : (l.set i a).getD i d = a := by
  induction l generalizing i with
  | nil => simp at h
  | cons x xs ih =>
    cases i with
    | zero => rfl
    | succ n =>
      simp only [List.set, List.getD_cons_succ]
      exact ih n (by simpa using h)

theorem list_getD_set_ne {α : Type} (l : List α) (i j : Nat) (a d : α)
    (h : j ≠ i) : (l.set i a).getD j d = l.getD j d := by
  induction l generalizing i j with
  | nil => rfl
  | cons x xs ih =>
    cases i with
    | zero =>
      cases j with
      | zero => exact absurd rfl h
      | succ m => rfl
    | succ n =>
      cases j with
      | zero => rfl
      | succ m =>
        simp only [List.set, List.getD_cons_succ]
        exact ih n m (fun hnm => h (by omega))

theorem list_all_getD {α : Type} (l : List α) (p : α → Bool) (i : Nat) (d : α)
    (hall : l.all p = true) (hi : i < l.length) : p (l.getD i d) = true := by
  induction l generalizing i with
  | nil => simp at hi
  | cons x xs ih =>
    simp only [List.all_cons, Bool.and_eq_true] at hall
    cases i with
    | zero => exact hall.1
    | succ n =>
      simp only [List.getD_cons_succ]
      exact ih n hall.2 (by simpa using hi)

theorem list_all_set {α : Type} (l : List α) (p : α → Bool) (i : Nat) (a : α)
    (hall : l.all p = true) (ha : p a = true) : (l.set i a).all p = true := by
  induction l generalizing i with
  | nil => rfl
  | cons x xs ih =>
    simp only [List.all_cons, Bool.and_eq_true] at hall
    cases i with
    | zero => simp [List.set, hall.2, ha]
    | succ n => simp [List.set, hall.1, ih n hall.2]

theorem wf_rows (b : _8x8Board) (hwf : b.wf = true) :
    b.squares.length = 8 ∧ ∀ i : Nat, i < 8 → (b.squares.getD i []).length = 8 := by
  simp only [_8x8Board.wf, Bool.and_eq_true, beq_iff_eq] at hwf
  refine ⟨hwf.1, fun i hi => ?_⟩
  have := list_all_getD b.squares (fun row => row.length == 8) i [] hwf.2
    (by rw [hwf.1]; exact hi)
  simpa using this

theorem wf_setAt (b : _8x8Board) (i : Nat) (v : Option Piece)
    (hwf : b.wf = true) (hi : i < 64) : (b.setAt i v).wf = true := by
  obtain ⟨hlen, hrow⟩ := wf_rows b hwf
  simp only [_8x8Board.wf, Bool.and_eq_true, beq_iff_eq] at hwf
  simp only [_8x8Board.wf, _8x8Board.setAt, Bool.and_eq_true, beq_iff_eq]
  constructor
  · simpa using hlen
  · refine list_all_set _ _ _ _ hwf.2 ?_
    simp only [beq_iff_eq, List.length_set]
    exact hrow (i / 8) (by omega)

theorem entry_setAt_self (b : _8x8Board) (i : Nat) (v : Option Piece)
    (hwf : b.wf = true) (hi : i < 64) : (b.setAt i v).entry i = v := by
  obtain ⟨hlen, hrow⟩ := wf_rows b hwf
  unfold _8x8Board.setAt _8x8Board.entry
  rw [list_getD_set_self _ _ _ _ (by rw [hlen]; omega)]
  rw [list_getD_set_self _ _ _ _ (by rw [hrow (i / 8) (by omega)]; omega)]

theorem entry_setAt_ne (b : _8x8Board) (i j : Nat) (v : Option Piece)
    (hwf : b.wf = true) (hij : j ≠ i) (hi : i < 64) :
    (b.setAt i v).entry j = b.entry j := by
  obtain ⟨hlen, hrow⟩ := wf_rows b hwf
  unfold _8x8Board.setAt _8x8Board.entry
  by_cases hq : j / 8 = i / 8
  · have hm : j % 8 ≠ i % 8 := by omega
    rw [hq, list_getD_set_self _ _ _ _ (by rw [hlen]; omega)]
    rw [list_getD_set_ne _ _ _ _ _ hm, ← hq]
  · rw [list_getD_set_ne _ _ _ _ _ hq]

theorem sbb_squares (b : Board) (x : BitBoard) (p : Piece) :
    (b.set_bit_board x p).squares = b.squares := by
  unfold Board.set_bit_board
  cases p.side <;> rfl

theorem sbb_get_same (b : Board) (x : BitBoard) (p : Piece) :
    (b.set_bit_board x p).bit_board_for p = x := by
  obtain ⟨pt, ps⟩ := p
  cases ps <;> cases pt <;> rfl

theorem sbb_get_other (b : Board) (x : BitBoard) (p q : Piece) (h : q ≠ p) :
    (b.set_bit_board x p).bit_board_for q = b.bit_board_for q := by
  obtain ⟨pt, ps⟩ := p
  obtain ⟨qt, qs⟩ := q
  cases ps <;> cases qs <;> cases pt <;> cases qt <;>
    first
      | rfl
      | exact absurd rfl h

theorem bb_for_squares_irrel (w bl : PieceSet) (s1 s2 : _8x8Board) (q : Piece) :
    (Board.mk w bl s1).bit_board_for q = (Board.mk w bl s2).bit_board_for q := by
  unfold Board.bit_board_for
  cases q.side <;> rfl

/-- Reduction of `Move::apply` for `Quiet`/`DoublePawnPush` moves written
with canonical lowercase square text. -/
theorem apply_quiet_eq (p : Piece) (b : Board) (fo ro ft rt : Nat)
    (hfo : fo < 8) (hro : ro < 8) (hft : ft < 8) (hrt : rt < 8)
    (mt : MoveType) (hmt : mt = .Quiet ∨ mt = .DoublePawnPush) :
    Move.apply ⟨p, squareStr fo ro, squareStr ft rt, mt⟩ b =
      .ok { b.set_bit_board
              ((b.bit_board_for p).xor
                (BitBoard.xor ⟨1 <<< (ro * 8 + fo)⟩ ⟨1 <<< (rt * 8 + ft)⟩)) p with
            squares :=
              (((b.set_bit_board
                  ((b.bit_board_for p).xor
                    (BitBoard.xor ⟨1 <<< (ro * 8 + fo)⟩ ⟨1 <<< (rt * 8 + ft)⟩)) p).squares.setAt
                (ro * 8 + fo) none).setAt (rt * 8 + ft) (some p)) } := by
  have ho := lerf_squareStr fo ro hfo hro
  have ht := lerf_squareStr ft rt hft hrt
  rcases hmt with h | h <;> subst h <;>
    simp [Move.apply, BitBoard.fromSquare, ho, ht, Board.set_square,
      _8x8Board.set_square]

/-- For `Quiet`/`DoublePawnPush` moves with arbitrary square text, `apply`
either fully succeeds or panics with the board untouched (the two
`BitBoard::from` unwraps run before any mutation, and the mailbox writes
cannot fail once the same strings passed `BitBoard::from`). -/
theorem apply_quiet_total (p : Piece) (o t : String) (b : Board) (mt : MoveType)
    (hmt : mt = .Quiet ∨ mt = .DoublePawnPush) :
    (∃ b2, Move.apply ⟨p, o, t, mt⟩ b = .ok b2) ∨
    Move.apply ⟨p, o, t, mt⟩ b = .panic b := by
  rcases hmt with h | h <;> subst h <;>
  · rcases h1 : lerf_index_for o with i1 | e1 | _ <;>
      rcases h2 : lerf_index_for t with i2 | e2 | _ <;>
      simp [Move.apply, BitBoard.fromSquare, Board.set_square,
        _8x8Board.set_square, h1, h2]

/-! ## Claim theorems -/

/-- C1 (code-bug evidence): in `Board::new()` the white pawn bitboard is
exactly rank 2 (`0xff00`), but the black king bitboard is the single bit
59, which `lerf_index_for` maps `"d8"` to — not bit 60 (`"e8"`) as the
claim states.  The `BLACK_KING_START_POS`/`BLACK_QUEEN_START_POS`
constants are swapped relative to the mailbox of the same constructor. -/
theorem C1_black_king_bit_is_d8 :
    Board.new.white.pawns = ⟨0xff00⟩ ∧
    lerf_index_for "e8" = .ok 60 ∧
    lerf_index_for "d8" = .ok 59 ∧
    Board.new.black.king = ⟨1 <<< 59⟩ ∧
    Board.new.black.king.val.testBit 59 = true ∧
    Board.new.black.king.val.testBit 60 = false := by
  decide

/-- C2 (code-bug evidence): in `Board::new()`, at square index 3 (`d1`)
exactly one of the twelve bitboards has the bit set — the white king's —
yet the mailbox entry at that index is the white queen, violating the
claimed mailbox/bitboard synchronization invariant. -/
theorem C2_mailbox_mismatch_at_d1 :
    countPiecesAt Board.new 3 = 1 ∧
    (Board.new.bit_board_for ⟨.King, .White⟩).val.testBit 3 = true ∧
    (Board.new.bit_board_for ⟨.Queen, .White⟩).val.testBit 3 = false ∧
    Board.new.squares.entry 3 = some ⟨.Queen, .White⟩ := by
  decide

/-- C4 (code-bug evidence): a `Capture` move (white rook a1 takes the
black pawn on a7) applied to the starting board returns `Ok` and leaves
the board completely unchanged: `Move::apply` has no arm for `Capture`
and falls through to the no-op `_ => ()`. -/
theorem C4_capture_apply_is_noop :
    Move.apply ⟨⟨.Rook, .White⟩, "a1", "a7", .Capture⟩ Board.new = .ok Board.new ∧
    (Board.new.bit_board_for ⟨.Pawn, .Black⟩).val.testBit 48 = true ∧
    (Board.new.bit_board_for ⟨.Rook, .White⟩).val.testBit 0 = true := by
  exact ⟨rfl, by decide, by decide⟩

/-- C9: `MoveType::is_capture()` is true for exactly the six categories
`Capture`, `EnPassant`, and the four promotion-captures, and equivalently
the `0x04` capture bit of the discriminant is set for exactly those six. -/
theorem C9_is_capture_exactly_six (mt : MoveType) :
    mt.is_capture =
      (mt == .Capture || mt == .EnPassant || mt == .KnightPromoteCapture ||
        mt == .BishopPromoteCapture || mt == .RookPromoteCapture ||
        mt == .QueenPromoteCapture) ∧
    ((mt.tag &&& CAPTURE_FLAG) != 0) =
      (mt == .Capture || mt == .EnPassant || mt == .KnightPromoteCapture ||
        mt == .BishopPromoteCapture || mt == .RookPromoteCapture ||
        mt == .QueenPromoteCapture) := by
  cases mt <;> exact ⟨by decide, by decide⟩

/-- C5 (counterexample): `"xa1"` is not a two-character square, yet
`lerf_index_for` accepts it (the filter regex is unanchored), returning
the index of the embedded `"a1"` instead of an `InvalidSquareError`. -/
theorem C5_superstring_accepted : lerf_index_for "xa1" = .ok 0 := by decide

/-- C5 (amended): `lerf_index_for` maps any string containing a lowercase
`[a-h][1-8]` pair to `rank_index * 8 + file_index` of the leftmost such
pair (canonical squares and superstrings alike); it panics on strings
whose only `[a-h][1-8]` pairs use uppercase letters; and it returns an
`InvalidSquareError` exactly on strings with no case-insensitive
`[a-h][1-8]` pair. -/
theorem C5_amended :
    (∀ f r : Nat, f < 8 → r < 8 →
      lerf_index_for (squareStr f r) = .ok (r * 8 + f) ∧
      lerf_index_for (String.append "x" (squareStr f r)) = .ok (r * 8 + f) ∧
      lerf_index_for (upperSquareStr f r) = .panic) ∧
    (∀ s : String, containsSquareCI s.data = false → lerf_index_for s = .err ⟨s⟩) := by
  constructor
  · intro f r hf hr
    refine ⟨lerf_squareStr f r hf hr, ?_, ?_⟩
    · interval_cases f <;> interval_cases r <;> decide
    · interval_cases f <;> interval_cases r <;> decide
  · intro s h
    simp [lerf_index_for, h]

/-- Witness for C5_amended at concrete inputs. -/
theorem C5_amended_witness :
    lerf_index_for (squareStr 0 0) = .ok 0 ∧ lerf_index_for "zz" = .err ⟨"zz"⟩ :=
  ⟨(C5_amended.1 0 0 (by decide) (by decide)).1, C5_amended.2 "zz" (by decide)⟩

/-- C6 (counterexample): on invalid square text `"i9"`,
`BitBoard::from` panics (it unwraps the `lerf_index_for` error) instead of
returning a typed failure — its result type has no error outcome at all. -/
theorem C6_invalid_text_panics : BitBoard.fromSquare "i9" = .panic := by decide

/-- C6 (amended): for every canonical lowercase square, `BitBoard::from`
yields the mask with exactly the one bit `1 <<< to_index` set; for every
string without a lowercase `[a-h][1-8]` pair (including uppercase squares)
it panics rather than returning a typed failure or an empty mask. -/
theorem C6_amended :
    (∀ f r : Nat, f < 8 → r < 8 →
      BitBoard.fromSquare (squareStr f r) = .ok ⟨1 <<< (r * 8 + f)⟩) ∧
    (∀ s : String, firstSquareLower s.data = none → BitBoard.fromSquare s = .panic) := by
  constructor
  · exact fun f r hf hr => fromSquare_squareStr f r hf hr
  · intro s h
    simp only [BitBoard.fromSquare, lerf_index_for, h]
    by_cases hc : containsSquareCI s.data <;> simp [hc]

/-- Witness for C6_amended at concrete inputs. -/
theorem C6_amended_witness :
    BitBoard.fromSquare (squareStr 4 1) = .ok ⟨1 <<< 12⟩ ∧
    BitBoard.fromSquare "zz9" = .panic :=
  ⟨C6_amended.1 4 1 (by decide) (by decide), C6_amended.2 "zz9" (by decide)⟩

/-- C8 (counterexample): `'A'` is outside `a`–`h`, yet `file_index_of`
returns `Ok(0)` rather than an `InvalidFileError`, because
`char::to_digit(18)` accepts uppercase hexadecimal-style letters. -/
theorem C8_uppercase_accepted : file_index_of 'A' = .ok 0 := by decide

/-- C8 (amended): `file_index_of` and `file_for_index` are mutual
inverses over lowercase `a`–`h` ↔ 0–7; `file_index_of` additionally maps
uppercase `A`–`H` to the same indices 0–7 (so the round trip sends
uppercase letters to lowercase); every character that is no letter
`a`–`h`/`A`–`H` yields an `InvalidFileError` (digits `0`–`9` do so via the
wrapped `u32` subtraction and `u8` truncation landing in 246–255), and
every index above 7 yields an `InvalidFileError` from `file_for_index`. -/
theorem C8_amended :
    (∀ k : Nat, k < 8 →
      file_index_of (Char.ofNat (97 + k)) = .ok k ∧
      file_for_index k = .ok (Char.ofNat (97 + k)).toString ∧
      file_index_of (Char.ofNat (65 + k)) = .ok k) ∧
    (∀ c : Char, ¬(97 ≤ c.toNat ∧ c.toNat ≤ 104) → ¬(65 ≤ c.toNat ∧ c.toNat ≤ 72) →
      ∃ e, file_index_of c = .err e) ∧
    (∀ i : Nat, 7 < i → ∃ e, file_for_index i = .err e) := by
  refine ⟨?_, ?_, ?_⟩
  · intro k hk
    interval_cases k <;> exact ⟨by decide, by decide, by decide⟩
  · intro c h1 h2
    rcases hto : to_digit18 c with _ | d
    · refine ⟨⟨"File out of range: " ++ c.toString⟩, ?_⟩
      simp [file_index_of, hto]
    · have hd : d ≤ 9 := by
        unfold to_digit18 at hto
        split_ifs at hto with h48
        injection hto with h
        omega
      have hni : ¬((d + U32MOD - 10) % U32MOD % 256 < 8) := by
        simp only [U32MOD]
        omega
      refine ⟨⟨c.toString⟩, ?_⟩
      simp [file_index_of, hto, hni]
  · intro i hi
    refine ⟨⟨toString i⟩, ?_⟩
    simp [file_for_index, hi]

/-- Witness for C8_amended at concrete inputs. -/
theorem C8_amended_witness :
    (file_index_of (Char.ofNat 97) = .ok 0 ∧
      file_for_index 0 = .ok (Char.ofNat 97).toString ∧
      file_index_of (Char.ofNat 65) = .ok 0) ∧
    (∃ e, file_index_of 'z' = .err e) ∧
    (∃ e, file_for_index 9 = .err e) :=
  ⟨C8_amended.1 0 (by decide),
   C8_amended.2.1 'z' (by decide) (by decide),
   C8_amended.2.2 9 (by decide)⟩

/-- C3 (counterexample): a `Quiet` move whose origin `"zz"` fails
coordinate validation makes `apply` panic (through the `unwrap` in
`BitBoard::from`) instead of returning an `InvalidSquareError`. -/
theorem C3_invalid_origin_panics :
    Move.apply ⟨⟨.Knight, .White⟩, "zz", "c3", .Quiet⟩ Board.new =
      .panic Board.new := by
  decide

/-- C3 (amended): `apply` never returns an `InvalidSquareError`; whenever
it panics (only `Quiet`/`DoublePawnPush` with square text lacking a
lowercase `[a-h][1-8]` pair do), the board is still unchanged at the
panic; and for every category other than `Quiet`/`DoublePawnPush` it
returns `Ok` with the board unchanged, without validating the squares. -/
theorem C3_amended (m : Move) (b : Board) :
    (∀ e b2, m.apply b ≠ .err e b2) ∧
    (∀ b2, m.apply b = .panic b2 → b2 = b) ∧
    (m.move_type ≠ .Quiet → m.move_type ≠ .DoublePawnPush → m.apply b = .ok b) := by
  obtain ⟨p, o, t, mt⟩ := m
  by_cases hq : mt = .Quiet ∨ mt = .DoublePawnPush
  · rcases apply_quiet_total p o t b mt hq with ⟨b2, hb2⟩ | hp
    · refine ⟨by simp [hb2], by simp [hb2], fun h1 h2 => ?_⟩
      rcases hq with rfl | rfl
      · exact absurd rfl h1
      · exact absurd rfl h2
    · refine ⟨by simp [hp], fun b2 h => ?_, fun h1 h2 => ?_⟩
      · rw [hp] at h
        exact (ApplyResult.panic.inj h).symm
      · rcases hq with rfl | rfl
        · exact absurd rfl h1
        · exact absurd rfl h2
  · have hok : Move.apply ⟨p, o, t, mt⟩ b = .ok b := by
      cases mt <;>
        first
          | rfl
          | exact absurd (Or.inl rfl) hq
          | exact absurd (Or.inr rfl) hq
    exact ⟨by simp [hok], by simp [hok], fun _ _ => hok⟩

/-- Witness for C3_amended at a concrete input: a `Capture` move with an
invalid target returns `Ok` with the board unchanged and is no error. -/
theorem C3_amended_witness :
    (∀ e b2, Move.apply ⟨⟨.Rook, .White⟩, "a1", "b9", .Capture⟩ Board.new ≠ .err e b2) ∧
    Move.apply ⟨⟨.Rook, .White⟩, "a1", "b9", .Capture⟩ Board.new = .ok Board.new :=
  ⟨(C3_amended ⟨⟨.Rook, .White⟩, "a1", "b9", .Capture⟩ Board.new).1,
   (C3_amended ⟨⟨.Rook, .White⟩, "a1", "b9", .Capture⟩ Board.new).2.2
     (by decide) (by decide)⟩

/-- C7: a `Quiet` or `DoublePawnPush` move between two distinct squares
(canonical lowercase text, file/rank indices below 8) XORs the moving
piece's bitboard with `origin-mask XOR target-mask`, empties the mailbox
at the origin, puts the moving piece at the target, and changes none of
the other eleven bitboards and no other mailbox slot. -/
theorem C7_quiet_dpp_effect (p : Piece) (b : Board) (fo ro ft rt : Nat)
    (hfo : fo < 8) (hro : ro < 8) (hft : ft < 8) (hrt : rt < 8)
    (hwf : b.squares.wf = true) (hne : ro * 8 + fo ≠ rt * 8 + ft)
    (mt : MoveType) (hmt : mt = .Quiet ∨ mt = .DoublePawnPush) :
    ∃ b2, Move.apply ⟨p, squareStr fo ro, squareStr ft rt, mt⟩ b = .ok b2 ∧
      b2.bit_board_for p =
        (b.bit_board_for p).xor
          (BitBoard.xor ⟨1 <<< (ro * 8 + fo)⟩ ⟨1 <<< (rt * 8 + ft)⟩) ∧
      (∀ q : Piece, q ≠ p → b2.bit_board_for q = b.bit_board_for q) ∧
      b2.squares.entry (ro * 8 + fo) = none ∧
      b2.squares.entry (rt * 8 + ft) = some p ∧
      (∀ j : Nat, j < 64 → j ≠ ro * 8 + fo → j ≠ rt * 8 + ft →
        b2.squares.entry j = b.squares.entry j) := by
  have hoi : ro * 8 + fo < 64 := by omega
  have hti : rt * 8 + ft < 64 := by omega
  have hwf1 := wf_setAt b.squares (ro * 8 + fo) none hwf hoi
  refine ⟨_, apply_quiet_eq p b fo ro ft rt hfo hro hft hrt mt hmt, ?_, ?_, ?_, ?_, ?_⟩
  · exact (bb_for_squares_irrel _ _ _
      (b.set_bit_board ((b.bit_board_for p).xor
        (BitBoard.xor ⟨1 <<< (ro * 8 + fo)⟩ ⟨1 <<< (rt * 8 + ft)⟩)) p).squares p).trans
      (sbb_get_same b _ p)
  · intro q hqp
    exact (bb_for_squares_irrel _ _ _
      (b.set_bit_board ((b.bit_board_for p).xor
        (BitBoard.xor ⟨1 <<< (ro * 8 + fo)⟩ ⟨1 <<< (rt * 8 + ft)⟩)) p).squares q).trans
      (sbb_get_other b _ p q hqp)
  · show ((((b.set_bit_board ((b.bit_board_for p).xor
        (BitBoard.xor ⟨1 <<< (ro * 8 + fo)⟩ ⟨1 <<< (rt * 8 + ft)⟩)) p).squares.setAt
        (ro * 8 + fo) none).setAt (rt * 8 + ft) (some p)).entry (ro * 8 + fo)) = none
    rw [sbb_squares]
    rw [entry_setAt_ne _ (rt * 8 + ft) (ro * 8 + fo) (some p) hwf1 hne hti]
    exact entry_setAt_self b.squares (ro * 8 + fo) none hwf hoi
  · show ((((b.set_bit_board ((b.bit_board_for p).xor
        (BitBoard.xor ⟨1 <<< (ro * 8 + fo)⟩ ⟨1 <<< (rt * 8 + ft)⟩)) p).squares.setAt
        (ro * 8 + fo) none).setAt (rt * 8 + ft) (some p)).entry (rt * 8 + ft)) = some p
    rw [sbb_squares]
    exact entry_setAt_self _ (rt * 8 + ft) (some p) hwf1 hti
  · intro j hj hj1 hj2
    show ((((b.set_bit_board ((b.bit_board_for p).xor
        (BitBoard.xor ⟨1 <<< (ro * 8 + fo)⟩ ⟨1 <<< (rt * 8 + ft)⟩)) p).squares.setAt
        (ro * 8 + fo) none).setAt (rt * 8 + ft) (some p)).entry j) = b.squares.entry j
    rw [sbb_squares]
    rw [entry_setAt_ne _ (rt * 8 + ft) j (some p) hwf1 hj2 hti]
    exact entry_setAt_ne b.squares (ro * 8 + fo) j none hwf hj1 hoi

/-- Witness for C7 at the spec's own example: white knight b1 → c3
(Quiet) on the starting board. -/
theorem C7_witness :
    ∃ b2, Move.apply ⟨⟨.Knight, .White⟩, squareStr 1 0, squareStr 2 2, .Quiet⟩ Board.new =
        .ok b2 ∧
      b2.bit_board_for ⟨.Knight, .White⟩ =
        (Board.new.bit_board_for ⟨.Knight, .White⟩).xor
          (BitBoard.xor ⟨1 <<< 1⟩ ⟨1 <<< 18⟩) ∧
      (∀ q : Piece, q ≠ ⟨.Knight, .White⟩ →
        b2.bit_board_for q = Board.new.bit_board_for q) ∧
      b2.squares.entry 1 = none ∧
      b2.squares.entry 18 = some ⟨.Knight, .White⟩ ∧
      (∀ j : Nat, j < 64 → j ≠ 1 → j ≠ 18 →
        b2.squares.entry j = Board.new.squares.entry j) :=
  C7_quiet_dpp_effect ⟨.Knight, .White⟩ Board.new 1 0 2 2 (by decide) (by decide)
    (by decide) (by decide) (by decide) (by decide) .Quiet (Or.inl rfl)

/-- C10: a `Quiet`/`DoublePawnPush` move whose origin equals its target
(same valid square) is silently accepted: `apply` returns `Ok`, the XOR
toggle is zero so the moving piece's bitboard is unchanged, and the
mailbox at that square ends up holding the moving piece. -/
theorem C10_degenerate_move (p : Piece) (b : Board) (f r : Nat)
    (hf : f < 8) (hr : r < 8) (hwf : b.squares.wf = true)
    (mt : MoveType) (hmt : mt = .Quiet ∨ mt = .DoublePawnPush) :
    ∃ b2, Move.apply ⟨p, squareStr f r, squareStr f r, mt⟩ b = .ok b2 ∧
      b2.bit_board_for p = b.bit_board_for p ∧
      b2.squares.entry (r * 8 + f) = some p := by
  have hi : r * 8 + f < 64 := by omega
  have happly := apply_quiet_eq p b f r f r hf hr hf hr mt hmt
  have hxs : (b.bit_board_for p).xor
      (BitBoard.xor ⟨1 <<< (r * 8 + f)⟩ ⟨1 <<< (r * 8 + f)⟩) = b.bit_board_for p := by
    simp [BitBoard.xor, Nat.xor_self, Nat.xor_zero]
  rw [hxs] at happly
  refine ⟨_, happly, ?_, ?_⟩
  · exact (bb_for_squares_irrel _ _ _
      (b.set_bit_board (b.bit_board_for p) p).squares p).trans
      (sbb_get_same b (b.bit_board_for p) p)
  · show ((((b.set_bit_board (b.bit_board_for p) p).squares.setAt
        (r * 8 + f) none).setAt (r * 8 + f) (some p)).entry (r * 8 + f)) = some p
    rw [sbb_squares]
    exact entry_setAt_self _ (r * 8 + f) (some p)
      (wf_setAt b.squares (r * 8 + f) none hwf hi) hi

/-- Witness for C10: a degenerate white pawn move e2 → e2 on the starting
board. -/
theorem C10_witness :
    ∃ b2, Move.apply ⟨⟨.Pawn, .White⟩, squareStr 4 1, squareStr 4 1, .Quiet⟩ Board.new =
        .ok b2 ∧
      b2.bit_board_for ⟨.Pawn, .White⟩ = Board.new.bit_board_for ⟨.Pawn, .White⟩ ∧
      b2.squares.entry 12 = some ⟨.Pawn, .White⟩ :=
  C10_degenerate_move ⟨.Pawn, .White⟩ Board.new 4 1 (by decide) (by decide)
    (by decide) .Quiet (Or.inl rfl)

end Alexander
